import Mathlib

/-!
Shallow embedding of `torch/ao/quantization/fx/_model_report/model_report_visualizer.py`
(class `ModelReportVisualizer`) and a verification of its accessor methods.

A generated report is a Python ordered dict mapping a module fqn (string) to a
feature dict, itself a dict mapping a feature name (string) to an arbitrary
Python value.  Python dicts preserve insertion order and have pairwise distinct
keys, so both levels are modelled as association lists in insertion order.
-/

/-- Python runtime values that may appear as a feature value in a report.  Each
constructor records the runtime type of the value, which is what the source
inspects: line 99 of the source tests `type(feature_dict[feature_name]) == torch.Tensor`,
an exact runtime-type equality.  `torch.nn.Parameter` is a proper subclass of
`torch.Tensor` (an array-like value whose runtime type is not `torch.Tensor`
itself), so it is kept as a separate constructor. -/
inductive Value where
  | tensor (data : List Int)
  | parameter (data : List Int)
  | int (n : Int)
  | str (s : String)
  | bool (b : Bool)
  | pynone
  deriving DecidableEq, Repr

/-- The check `type(v) == torch.Tensor` from line 99 of the source: exact
runtime-type equality with `torch.Tensor`.  True only for `Value.tensor`; in
particular false for `Value.parameter`, whose runtime type is the proper
subclass `torch.nn.Parameter`. -/
def Value.type_eq_tensor : Value → Bool
  | .tensor _ => true
  | _ => false

/-- The check `isinstance(v, torch.Tensor)`: true for `torch.Tensor` and all of
its subclasses, i.e. for every array-like value.  The source does not use this
check; it is used only to state that a value can be array-like without having
exact type `torch.Tensor`. -/
def Value.is_tensor_instance : Value → Bool
  | .tensor _ => true
  | .parameter _ => true
  | _ => false

/-- A feature dict: a Python dict from feature name to value, as an association
list in insertion order. -/
abbrev FeatureDict := List (String × Value)

/-- A generated report: a Python ordered dict from module fqn to feature dict,
as an association list in insertion order. -/
abbrev Report := List (String × FeatureDict)

/-- The `ModelReportVisualizer` instance.  Its constructor (source lines 53-62)
stores the reports it is given in the attribute `generated_reports`. -/
structure ModelReportVisualizer where
  generated_reports : Report
  deriving DecidableEq, Repr

namespace ModelReportVisualizer

/-- Method `get_all_unique_module_fqns` (source lines 63-73):
`return set(self.generated_reports.keys())`. -/
def get_all_unique_module_fqns (self : ModelReportVisualizer) : Finset String :=
  (self.generated_reports.map Prod.fst).toFinset

/-- The inner `for feature_name in feature_dict` loop of
`get_all_unique_feature_names` (source lines 96-101): each feature name of the
feature dict is added to the accumulated set when `plottable_features_only` is
false or its value has exact runtime type `torch.Tensor`.  Iterating the
key/value pairs of the dict is iterating its keys, where `feature_dict[feature_name]`
is the value paired with the key. -/
def add_feature_names (plottable_features_only : Bool)
    (unique_feature_names : Finset String) (feature_dict : FeatureDict) : Finset String :=
  feature_dict.foldl
    (fun acc p =>
      if !plottable_features_only || p.2.type_eq_tensor then insert p.1 acc else acc)
    unique_feature_names

/-- Method `get_all_unique_feature_names` (source lines 75-103): starts from the
empty set and runs the nested loops over `self.generated_reports`. -/
def get_all_unique_feature_names (self : ModelReportVisualizer)
    (plottable_features_only : Bool := true) : Finset String :=
  self.generated_reports.foldl
    (fun unique_feature_names p =>
      add_feature_names plottable_features_only unique_feature_names p.2)
    ∅

/-- Method `generate_table_info` (source lines 105-132): the body is `pass`, so
a call returns Python `None` instead of the pair documented in its docstring.
The result is modelled as an `Option` of the documented pair type, `none`
standing for Python `None`. -/
def generate_table_info (_self : ModelReportVisualizer)
    (_feature : String := "") (_module_fqn_prefix_filter : String := "") :
    Option (String × List (List Value)) :=
  none

/-- Method `generate_table_visualization` (source lines 134-155): the body is
`pass`; the method is documented to print a table and return nothing, and the
call returns Python `None`. -/
def generate_table_visualization (_self : ModelReportVisualizer)
    (_feature : String := "") (_module_fqn_prefix_filter : String := "") :
    Option Unit :=
  none

/-- Method `generate_plot_info` (source lines 157-180): the body is `pass`, so a
call returns Python `None` instead of the documented pair of a plotting callable
and row data. -/
def generate_plot_info (_self : ModelReportVisualizer)
    (_feature : String) (_module_fqn_prefix_filter : String := "") :
    Option ((Unit → Unit) × List (List Value)) :=
  none

/-- Method `generate_plot_visualization` (source lines 182-198): the body is
`pass`; the call returns Python `None`. -/
def generate_plot_visualization (_self : ModelReportVisualizer)
    (_feature : String) (_module_fqn_prefix_filter : String := "") :
    Option Unit :=
  none

/-- Method `generate_histogram_info` (source lines 200-221): the body is `pass`,
so a call returns Python `None` instead of the documented pair of a histogram
callable and row data. -/
def generate_histogram_info (_self : ModelReportVisualizer)
    (_feature : String) (_module_fqn_prefix_filter : String := "") :
    Option ((Unit → Unit) × List (List Value)) :=
  none

/-- Method `generate_histogram_visualization` (source lines 223-239): the body
is `pass`; the call returns Python `None`. -/
def generate_histogram_visualization (_self : ModelReportVisualizer)
    (_feature : String) (_module_fqn_prefix_filter : String := "") :
    Option Unit :=
  none

end ModelReportVisualizer

/-- Python subscript `d[k]` on a feature dict: the value at the key, or a
`KeyError` when the key is absent. -/
def FeatureDict.getitem (d : FeatureDict) (k : String) : Except String Value :=
  match d.find? (fun p => p.1 == k) with
  | some p => .ok p.2
  | none => .error "KeyError"

/-- Python subscript `r[k]` on the report dict: the feature dict at the key, or
a `KeyError` when the key is absent. -/
def Report.getitem (r : Report) (k : String) : Except String FeatureDict :=
  match r.find? (fun p => p.1 == k) with
  | some p => .ok p.2
  | none => .error "KeyError"

/-- The inner loop of `get_all_unique_feature_names` with the subscript
`feature_dict[feature_name]` modelled as fallible: iterates the given list of
keys and performs the lookup exactly as the source does, propagating a
`KeyError` were one ever raised. -/
def feature_loop_checked (plottable_features_only : Bool) (feature_dict : FeatureDict) :
    List String → Finset String → Except String (Finset String)
  | [], acc => .ok acc
  | feature_name :: rest, acc =>
    match FeatureDict.getitem feature_dict feature_name with
    | .error e => .error e
    | .ok v =>
      feature_loop_checked plottable_features_only feature_dict rest
        (if !plottable_features_only || v.type_eq_tensor then insert feature_name acc else acc)

/-- The outer loop of `get_all_unique_feature_names` with the subscript
`self.generated_reports[module_fqn]` modelled as fallible: iterates the given
list of module fqns, looks the feature dict up as the source does, and runs the
inner loop over that dict's keys. -/
def module_loop_checked (plottable_features_only : Bool) (reports : Report) :
    List String → Finset String → Except String (Finset String)
  | [], acc => .ok acc
  | module_fqn :: rest, acc =>
    match Report.getitem reports module_fqn with
    | .error e => .error e
    | .ok feature_dict =>
      match feature_loop_checked plottable_features_only feature_dict
          (feature_dict.map Prod.fst) acc with
      | .error e => .error e
      | .ok acc2 => module_loop_checked plottable_features_only reports rest acc2

/-- Method `get_all_unique_feature_names` with every Python subscript modelled
as fallible, to show that no error path is taken. -/
def ModelReportVisualizer.get_all_unique_feature_names_checked
    (self : ModelReportVisualizer) (plottable_features_only : Bool) :
    Except String (Finset String) :=
  module_loop_checked plottable_features_only self.generated_reports
    (self.generated_reports.map Prod.fst) ∅

/-- Method `get_all_unique_module_fqns` in the same fallible setting: its body
performs no subscript, only `set(self.generated_reports.keys())`, so its
translation has no error case at all. -/
def ModelReportVisualizer.get_all_unique_module_fqns_checked
    (self : ModelReportVisualizer) : Except String (Finset String) :=
  .ok (self.generated_reports.map Prod.fst).toFinset

/-- Method `get_all_unique_module_fqns` as an explicit state transformer on the
instance: the body translated statement by statement contains no assignment to
`self.generated_reports`, only a read, so the state threads through unchanged. -/
def ModelReportVisualizer.get_all_unique_module_fqns_run
    (self : ModelReportVisualizer) : Finset String × ModelReportVisualizer :=
  ((self.generated_reports.map Prod.fst).toFinset, self)

/-- Method `get_all_unique_feature_names` as an explicit state transformer on
the instance: the loops only read `self.generated_reports` and build the local
set `unique_feature_names`; no statement assigns to the instance, so the state
threads through unchanged. -/
def ModelReportVisualizer.get_all_unique_feature_names_run
    (self : ModelReportVisualizer) (plottable_features_only : Bool) :
    Finset String × ModelReportVisualizer :=
  (self.generated_reports.foldl
      (fun unique_feature_names p =>
        ModelReportVisualizer.add_feature_names plottable_features_only
          unique_feature_names p.2)
      ∅,
    self)

namespace ModelReportVisualizer

/-- Membership in the result of the inner feature loop: a name is in the
resulting set exactly when it was already accumulated or some pair of the
feature dict carries it with a value passing the plottability filter. -/
theorem mem_add_feature_names (b : Bool) (l : FeatureDict) (s : String) :
    ∀ acc : Finset String, s ∈ add_feature_names b acc l ↔
      s ∈ acc ∨ ∃ v, (s, v) ∈ l ∧ (!b || v.type_eq_tensor) = true := by
  induction l with
  | nil =>
    intro acc
    simp [add_feature_names]
  | cons q t ih =>
    intro acc
    have hstep : add_feature_names b acc (q :: t) =
        add_feature_names b
          (if !b || q.2.type_eq_tensor then insert q.1 acc else acc) t := rfl
    rw [hstep, ih]
    by_cases hc : (!b || q.2.type_eq_tensor) = true
    · simp only [hc, if_true, Finset.mem_insert, List.mem_cons]
      constructor
      · rintro ((h | h) | ⟨v, hv, hvb⟩)
        · exact Or.inr ⟨q.2, Or.inl (by rw [h]), hc⟩
        · exact Or.inl h
        · exact Or.inr ⟨v, Or.inr hv, hvb⟩
      · rintro (h | ⟨v, (h | h), hvb⟩)
        · exact Or.inl (Or.inr h)
        · exact Or.inl (Or.inl (congrArg Prod.fst h))
        · exact Or.inr ⟨v, h, hvb⟩
    · simp only [hc, if_false, List.mem_cons]
      constructor
      · rintro (h | ⟨v, hv, hvb⟩)
        · exact Or.inl h
        · exact Or.inr ⟨v, Or.inr hv, hvb⟩
      · rintro (h | ⟨v, (h | h), hvb⟩)
        · exact Or.inl h
        · exact absurd hvb (by
            have h2 : v = q.2 := congrArg Prod.snd h
            rw [h2]; exact hc)
        · exact Or.inr ⟨v, h, hvb⟩

/-- Membership in the result of the outer module loop, for any starting
accumulator. -/
theorem mem_feature_names_foldl (b : Bool) (L : Report) (s : String) :
    ∀ acc : Finset String,
      s ∈ L.foldl (fun acc p => add_feature_names b acc p.2) acc ↔
        s ∈ acc ∨ ∃ fqn fd, (fqn, fd) ∈ L ∧
          ∃ v, (s, v) ∈ fd ∧ (!b || v.type_eq_tensor) = true := by
  induction L with
  | nil =>
    intro acc
    simp
  | cons q t ih =>
    intro acc
    rw [List.foldl_cons, ih, mem_add_feature_names]
    constructor
    · rintro ((h | ⟨v, hv, hvb⟩) | ⟨fqn, fd, hfd, v, hv, hvb⟩)
      · exact Or.inl h
      · exact Or.inr ⟨q.1, q.2, List.mem_cons_self q t, v, hv, hvb⟩
      · exact Or.inr ⟨fqn, fd, List.mem_cons_of_mem q hfd, v, hv, hvb⟩
    · rintro (h | ⟨fqn, fd, hfd, v, hv, hvb⟩)
      · exact Or.inl (Or.inl h)
      · rcases List.mem_cons.mp hfd with h | h
        · refine Or.inl (Or.inr ⟨v, ?_, hvb⟩)
          have : fd = q.2 := congrArg Prod.snd h
          rw [← this]; exact hv
        · exact Or.inr ⟨fqn, fd, h, v, hv, hvb⟩

/-- Full membership characterization of `get_all_unique_feature_names`. -/
theorem mem_get_all_unique_feature_names (self : ModelReportVisualizer)
    (b : Bool) (s : String) :
    s ∈ self.get_all_unique_feature_names b ↔
      ∃ fqn fd, (fqn, fd) ∈ self.generated_reports ∧
        ∃ v, (s, v) ∈ fd ∧ (!b || v.type_eq_tensor) = true := by
  rw [get_all_unique_feature_names, mem_feature_names_foldl]
  simp

end ModelReportVisualizer

/-- Lookup of a key that occurs among the keys of a feature dict succeeds. -/
theorem FeatureDict.getitem_key_ok (d : FeatureDict) (k : String)
    (h : k ∈ d.map Prod.fst) : ∃ v, FeatureDict.getitem d k = Except.ok v := by
  obtain ⟨p, hp, hpk⟩ := List.mem_map.mp h
  have hsome : (d.find? (fun q => q.1 == k)).isSome := by
    rw [List.find?_isSome]
    exact ⟨p, hp, by simp [hpk]⟩
  obtain ⟨q, hq⟩ := Option.isSome_iff_exists.mp hsome
  exact ⟨q.2, by simp [FeatureDict.getitem, hq]⟩

/-- Lookup of a key that occurs among the keys of the report dict succeeds. -/
theorem Report.getitem_fqn_ok (r : Report) (k : String)
    (h : k ∈ r.map Prod.fst) : ∃ fd, Report.getitem r k = Except.ok fd := by
  obtain ⟨p, hp, hpk⟩ := List.mem_map.mp h
  have hsome : (r.find? (fun q => q.1 == k)).isSome := by
    rw [List.find?_isSome]
    exact ⟨p, hp, by simp [hpk]⟩
  obtain ⟨q, hq⟩ := Option.isSome_iff_exists.mp hsome
  exact ⟨q.2, by simp [Report.getitem, hq]⟩

/-- The inner checked loop never raises when it iterates keys of the dict it
looks them up in. -/
theorem feature_loop_checked_ok (b : Bool) (d : FeatureDict) :
    ∀ (l : List String), (∀ k ∈ l, k ∈ d.map Prod.fst) →
      ∀ acc : Finset String, ∃ r, feature_loop_checked b d l acc = Except.ok r := by
  intro l
  induction l with
  | nil =>
    intro _ acc
    exact ⟨acc, rfl⟩
  | cons k t ih =>
    intro hsub acc
    obtain ⟨v, hv⟩ := FeatureDict.getitem_key_ok d k (hsub k (List.mem_cons_self k t))
    obtain ⟨r, hr⟩ := ih (fun k2 hk2 => hsub k2 (List.mem_cons_of_mem k hk2))
      (if !b || v.type_eq_tensor then insert k acc else acc)
    exact ⟨r, by simp only [feature_loop_checked, hv]; exact hr⟩

/-- The outer checked loop never raises when it iterates keys of the report it
looks them up in. -/
theorem module_loop_checked_ok (b : Bool) (R : Report) :
    ∀ (l : List String), (∀ k ∈ l, k ∈ R.map Prod.fst) →
      ∀ acc : Finset String, ∃ r, module_loop_checked b R l acc = Except.ok r := by
  intro l
  induction l with
  | nil =>
    intro _ acc
    exact ⟨acc, rfl⟩
  | cons k t ih =>
    intro hsub acc
    obtain ⟨fd, hfd⟩ := Report.getitem_fqn_ok R k (hsub k (List.mem_cons_self k t))
    obtain ⟨acc2, hacc2⟩ := feature_loop_checked_ok b fd (fd.map Prod.fst)
      (fun _ h => h) acc
    obtain ⟨r, hr⟩ := ih (fun k2 hk2 => hsub k2 (List.mem_cons_of_mem k hk2)) acc2
    exact ⟨r, by simp only [module_loop_checked, hfd, hacc2]; exact hr⟩

/-- C1: for every report mapping, `get_all_unique_feature_names` called with
`plottable_features_only = True` returns exactly the set of feature names that,
in at least one layer's feature set, carry an array-like ("tensor") value,
i.e. a value whose runtime type is exactly `torch.Tensor`; feature names whose
values are never such are excluded. -/
theorem get_all_unique_feature_names_plottable_mem (m : ModelReportVisualizer)
    (s : String) :
    s ∈ m.get_all_unique_feature_names true ↔
      ∃ fqn fd, (fqn, fd) ∈ m.generated_reports ∧
        ∃ v, (s, v) ∈ fd ∧ v.type_eq_tensor = true := by
  rw [ModelReportVisualizer.mem_get_all_unique_feature_names]
  simp

/-- C2: for every report mapping, `get_all_unique_feature_names` called with
`plottable_features_only = False` returns exactly the union over all layers of
the feature names appearing in each layer's feature set, with no restriction on
the values. -/
theorem get_all_unique_feature_names_all_mem (m : ModelReportVisualizer)
    (s : String) :
    s ∈ m.get_all_unique_feature_names false ↔
      ∃ fqn fd, (fqn, fd) ∈ m.generated_reports ∧ ∃ v, (s, v) ∈ fd := by
  rw [ModelReportVisualizer.mem_get_all_unique_feature_names]
  simp

/-- C3: for every report mapping, `get_all_unique_module_fqns` returns exactly
the set of layer identifiers, the top-level keys of the nested mapping, each
appearing once (the result is a set). -/
theorem get_all_unique_module_fqns_mem (m : ModelReportVisualizer) (s : String) :
    s ∈ m.get_all_unique_module_fqns ↔ ∃ fd, (s, fd) ∈ m.generated_reports := by
  simp only [ModelReportVisualizer.get_all_unique_module_fqns, List.mem_toFinset,
    List.mem_map]
  constructor
  · rintro ⟨p, hp, hps⟩
    exact ⟨p.2, by rw [← hps]; exact hp⟩
  · rintro ⟨fd, hfd⟩
    exact ⟨(s, fd), hfd, rfl⟩

/-- C4: for every choice of the `feature` and `module_fqn_prefix_filter`
arguments and every stored report, each of the six generator methods has an
unimplemented body (`pass`): it returns Python `None` (modelled `none`) rather
than the string/row-data or callable/row-data results its docstring describes. -/
theorem generators_return_none (m : ModelReportVisualizer) (feature mfilter : String) :
    m.generate_table_info feature mfilter = none ∧
    m.generate_table_visualization feature mfilter = none ∧
    m.generate_plot_info feature mfilter = none ∧
    m.generate_plot_visualization feature mfilter = none ∧
    m.generate_histogram_info feature mfilter = none ∧
    m.generate_histogram_visualization feature mfilter = none :=
  ⟨rfl, rfl, rfl, rfl, rfl, rfl⟩

/-- C5: for every report of the documented nested-mapping shape and every
boolean argument, the two accessors complete normally: with every Python
subscript modelled as fallible, `get_all_unique_module_fqns` has no error case
at all and `get_all_unique_feature_names` always returns a result, never a
`KeyError`. -/
theorem accessors_no_error (m : ModelReportVisualizer) (b : Bool) :
    m.get_all_unique_module_fqns_checked = Except.ok m.get_all_unique_module_fqns ∧
    ∃ r, m.get_all_unique_feature_names_checked b = Except.ok r := by
  refine ⟨rfl, ?_⟩
  exact module_loop_checked_ok b m.generated_reports
    (m.generated_reports.map Prod.fst) (fun _ h => h) ∅

/-- C6: when the instance is initialized with the empty report mapping,
`get_all_unique_module_fqns` returns the empty set. -/
theorem get_all_unique_module_fqns_empty :
    (ModelReportVisualizer.mk []).get_all_unique_module_fqns = ∅ :=
  rfl

/-- C7: the plottability test is exact type equality with `torch.Tensor`: a
feature value of a proper subclass such as `torch.nn.Parameter` is array-like
(an instance of `torch.Tensor`) but is not counted as plottable, so when no
layer holds the feature as an exact `torch.Tensor` its name is omitted from
`get_all_unique_feature_names(plottable_features_only=True)`, while it still
appears with `False`. -/
theorem plottable_requires_exact_tensor_type (m : ModelReportVisualizer)
    (s : String) (d : List Int)
    (hparam : ∃ fqn fd, (fqn, fd) ∈ m.generated_reports ∧ (s, Value.parameter d) ∈ fd)
    (hnoexact : ∀ fqn fd v, (fqn, fd) ∈ m.generated_reports → (s, v) ∈ fd →
      v.type_eq_tensor = false) :
    (Value.parameter d).is_tensor_instance = true ∧
    (Value.parameter d).type_eq_tensor = false ∧
    s ∉ m.get_all_unique_feature_names true ∧
    s ∈ m.get_all_unique_feature_names false := by
  refine ⟨rfl, rfl, ?_, ?_⟩
  · intro hmem
    rw [ModelReportVisualizer.mem_get_all_unique_feature_names] at hmem
    obtain ⟨fqn, fd, hfd, v, hv, hvb⟩ := hmem
    have hfalse := hnoexact fqn fd v hfd hv
    simp [hfalse] at hvb
  · rw [ModelReportVisualizer.mem_get_all_unique_feature_names]
    obtain ⟨fqn, fd, hfd, hv⟩ := hparam
    exact ⟨fqn, fd, hfd, Value.parameter d, hv, by simp⟩

/-- Witness for C7 at a concrete report: one layer whose feature value is a
`torch.nn.Parameter`. -/
theorem plottable_requires_exact_tensor_type_witness :
    (Value.parameter [1, 2]).is_tensor_instance = true ∧
    (Value.parameter [1, 2]).type_eq_tensor = false ∧
    "per_channel_min" ∉ (ModelReportVisualizer.mk
      [("block1.conv", [("per_channel_min", Value.parameter [1, 2])])]).get_all_unique_feature_names
        true ∧
    "per_channel_min" ∈ (ModelReportVisualizer.mk
      [("block1.conv", [("per_channel_min", Value.parameter [1, 2])])]).get_all_unique_feature_names
        false := by
  apply plottable_requires_exact_tensor_type
  · exact ⟨"block1.conv", [("per_channel_min", Value.parameter [1, 2])],
      by simp, by simp⟩
  · intro fqn fd v hfd hv
    simp only [List.mem_singleton] at hfd
    have hfd2 : fd = [("per_channel_min", Value.parameter [1, 2])] :=
      congrArg Prod.snd hfd
    rw [hfd2] at hv
    simp only [List.mem_singleton] at hv
    have hv2 : v = Value.parameter [1, 2] := congrArg Prod.snd hv
    rw [hv2]
    rfl

/-- C8: for every report mapping, the plottable-only feature-name set is a
subset of the unrestricted one, and calling the method with no argument is the
same as calling it with `true`, the declared default. -/
theorem plottable_subset_all_and_default (m : ModelReportVisualizer) :
    m.get_all_unique_feature_names true ⊆ m.get_all_unique_feature_names false ∧
    m.get_all_unique_feature_names = m.get_all_unique_feature_names true := by
  constructor
  · refine Finset.subset_iff.mpr ?_
    intro s hs
    rw [ModelReportVisualizer.mem_get_all_unique_feature_names] at hs ⊢
    obtain ⟨fqn, fd, hfd, v, hv, _⟩ := hs
    exact ⟨fqn, fd, hfd, v, hv, by simp⟩
  · rfl

/-- C9: neither accessor mutates state: translated as explicit state
transformers, both accessors return the instance exactly as received, every
layer key and feature value unchanged, while computing the same results as the
pure translations. -/
theorem accessors_preserve_state (m : ModelReportVisualizer) (b : Bool) :
    m.get_all_unique_module_fqns_run.2 = m ∧
    (m.get_all_unique_feature_names_run b).2 = m ∧
    m.get_all_unique_module_fqns_run.1 = m.get_all_unique_module_fqns ∧
    (m.get_all_unique_feature_names_run b).1 = m.get_all_unique_feature_names b :=
  ⟨rfl, rfl, rfl, rfl⟩
